import Mathlib

/-!
Verification of the VoidSpinner probabilistic generation and crafting engine.

The definitions below are a shallow embedding of the TypeScript source:
  - the VoidRNG linear congruential generator and its distribution utilities
    (client/src/lib/rng.ts and server/gameLogic.ts, which contain the same class);
  - the economic formulas and the mutation engine (server/gameLogic.ts);
  - the request-handler state transitions for spin / shatter / sell / upgrade /
    mutate (server routes), modelled as functions on an explicit world state;
  - a small heap model of performMutation used to verify that it writes only to
    freshly allocated records.

JavaScript numbers are modelled as exact rationals (ℚ) and integers as ℤ.
JavaScript's remainder operator matches Int.tmod (sign of the dividend).
The unseeded Math.random() draws of the mutation endpoint are modelled as
explicit rational inputs.
-/

/- ### VoidRNG: the linear congruential generator -/

/-- One step of the generator: `this.seed = (this.seed * 9301 + 49297) % 233280`. -/
def lcgStep (s : Int) : Int := Int.tmod (s * 9301 + 49297) 233280

/-- The fractional value returned by `next()`: `this.seed / 233280`. -/
def fracOf (s : Int) : ℚ := (s : ℚ) / 233280

/-- The constructor `new VoidRNG(seed?)`, i.e. `this.seed = seed || Date.now()`.
In JavaScript the number 0 is falsy, so an explicit seed of 0 also falls back to
the current clock value `now`. -/
def voidRNGInit (seed : Option Int) (now : Int) : Int :=
  match seed with
  | some s => if s = 0 then now else s
  | none => now

/-- The internal seed after `n` calls to `next()`. -/
def seedSeq (s : Int) : Nat → Int
  | 0 => s
  | n + 1 => lcgStep (seedSeq s n)

/-- Method `next()`: advances the seed and returns `seed / 233280` with the new seed. -/
def rngNext (s : Int) : ℚ × Int := (fracOf (lcgStep s), lcgStep s)

/-- Method `random(min, max) = min + next() * (max - min)`. -/
def rngRandom (mn mx : ℚ) (s : Int) : ℚ × Int :=
  let (r, s1) := rngNext s
  (mn + r * (mx - mn), s1)

/-- Method `randomInt(min, max) = floor(random(min, max + 1))`. -/
def rngRandomInt (mn mx : ℚ) (s : Int) : Int × Int :=
  let (r, s1) := rngRandom mn (mx + 1) s
  (Int.floor r, s1)

/-- The accumulation loop of `weightedChoice`: walks the items adding each
weight to `cur` and returns the first item whose cumulative weight is ≥ the
drawn value `r`; `none` when the walk falls off the end. -/
def wcLoop {α : Type} (r : ℚ) (cur : ℚ) : List (α × ℚ) → Option α
  | [] => none
  | (a, w) :: rest => if r ≤ cur + w then some a else wcLoop r (cur + w) rest

/-- Method `weightedChoice(items)`: draws `r = random(0, totalWeight)`, walks the items
accumulating weight, and falls back to the last item when the loop overshoots. -/
def weightedChoice {α : Type} (items : List (α × ℚ)) (s : Int) : Option α × Int :=
  let totalWeight := (items.map Prod.snd).sum
  let (randomValue, s1) := rngRandom 0 totalWeight s
  match wcLoop randomValue 0 items with
  | some a => (some a, s1)
  | none => ((items.getLast?).map Prod.fst, s1)

/-- The descending threshold ladder of `rollRarity`, applied to the adjusted
roll; every comparison is strict. -/
def rarityLadder (adjustedRoll : ℚ) : String :=
  if adjustedRoll > 0.999995 then "void_touched"
  else if adjustedRoll > 0.9999 then "mythic"
  else if adjustedRoll > 0.999 then "legendary"
  else if adjustedRoll > 0.99 then "epic"
  else if adjustedRoll > 0.95 then "rare"
  else if adjustedRoll > 0.8 then "uncommon"
  else "common"

/-- Method `rollRarity(bonusChance)`: one `next()` draw, plus the bonus, clamped by
`Math.min(roll + bonusChance, 0.999999)`, then the threshold ladder. -/
def rollRarity (bonusChance : ℚ) (s : Int) : String × Int :=
  let (roll, s1) := rngNext s
  (rarityLadder (min (roll + bonusChance) 0.999999), s1)

/- ### Data model -/

/-- An entry of a fragment's `implicitMods` array: `{name, value}`. -/
structure ImplicitMod where
  name : String
  value : ℚ
deriving DecidableEq

/-- An entry of a fragment's `affixes` array: `{name, value, source}`. -/
structure Affix where
  name : String
  value : ℚ
  source : String
deriving DecidableEq

/-- A fragment record (the fields the core logic reads and writes; the
storage-assigned `id`, `gameStateId` and `createdAt` are kept outside).
`baseStats` is a JavaScript object modelled as an insertion-ordered
association list. -/
structure Fragment where
  name : String
  type : String
  rarity : String
  baseStats : List (String × ℚ)
  implicitMods : List ImplicitMod
  affixes : List Affix
  isCorrupted : Bool
  quantity : Int
deriving DecidableEq

/-- The per-player game state row. -/
structure GameState where
  flux : Int
  totalSpins : Int
  deviceLevel : Int
  spinSpeedLevel : Int
  rarityOddsLevel : Int
  fluxCostLevel : Int
  mutationSlotsLevel : Int
deriving DecidableEq

/- ### Economic formulas (server/gameLogic.ts) -/

/-- The shatter-value multiplier table of `calculateShatterValue`, with the
source's fallback of 1 for an unknown rarity. -/
def shatterRarityMultipliers (r : String) : ℚ :=
  if r = "common" then 1
  else if r = "uncommon" then 3
  else if r = "rare" then 8
  else if r = "epic" then 20
  else if r = "legendary" then 50
  else if r = "mythic" then 125
  else if r = "void_touched" then 300
  else 1

/-- Function `calculateShatterValue(fragment) = floor(5 * multiplier * quantity)`. -/
def calculateShatterValue (fragment : Fragment) : Int :=
  Int.floor ((5 : ℚ) * shatterRarityMultipliers fragment.rarity * (fragment.quantity : ℚ))

/-- The base-cost table of `calculateDeviceUpgradeCost`, with the source's
fallback of 500 for an unknown track. -/
def upgradeBaseCost (upgradeType : String) : ℚ :=
  if upgradeType = "spinSpeed" then 500
  else if upgradeType = "rarityOdds" then 1200
  else if upgradeType = "fluxCost" then 800
  else if upgradeType = "mutationSlots" then 2500
  else 500

/-- The level-selection switch of `calculateDeviceUpgradeCost` (default 1). -/
def upgradeCurrentLevel (gameState : GameState) (upgradeType : String) : Int :=
  if upgradeType = "spinSpeed" then gameState.spinSpeedLevel
  else if upgradeType = "rarityOdds" then gameState.rarityOddsLevel
  else if upgradeType = "fluxCost" then gameState.fluxCostLevel
  else if upgradeType = "mutationSlots" then gameState.mutationSlotsLevel
  else 1

/-- Function `calculateDeviceUpgradeCost = floor(baseCost * 1.5^(currentLevel - 1))`. -/
def calculateDeviceUpgradeCost (gameState : GameState) (upgradeType : String) : Int :=
  Int.floor (upgradeBaseCost upgradeType *
    (1.5 : ℚ) ^ (upgradeCurrentLevel gameState upgradeType - 1))

/-- The record returned by the server variant of `getDeviceStats`. -/
structure DeviceStats where
  spinSpeed : ℚ
  rarityBonus : ℚ
  fluxCostReduction : ℚ
  mutationSlots : Int
deriving DecidableEq

/-- Server `getDeviceStats` (server/gameLogic.ts). -/
def getDeviceStats (gameState : GameState) : DeviceStats :=
  { spinSpeed := 1 + ((gameState.spinSpeedLevel : ℚ) - 1) * 0.2
    rarityBonus := ((gameState.rarityOddsLevel : ℚ) - 1) * 0.0005
    fluxCostReduction := ((gameState.fluxCostLevel : ℚ) - 1) * 5
    mutationSlots := 2 + gameState.mutationSlotsLevel }

/-- The record returned by the client variant of `getDeviceStats`. -/
structure DeviceStatsClient where
  spinSpeed : ℚ
  rarityBonus : ℚ
  fluxCost : ℚ
  mutationSlots : Int
deriving DecidableEq

/-- Client `getDeviceStats` (client/src/lib/gameLogic.ts); note its
`rarityBonus` factor is 0.05, not the server's 0.0005. -/
def getDeviceStatsClient (gameState : GameState) : DeviceStatsClient :=
  { spinSpeed := 1 + ((gameState.spinSpeedLevel : ℚ) - 1) * 0.2
    rarityBonus := ((gameState.rarityOddsLevel : ℚ) - 1) * 0.05
    fluxCost := max (25 - ((gameState.fluxCostLevel : ℚ) - 1) * 5) 5
    mutationSlots := 2 + gameState.mutationSlotsLevel }

/-- The spin cost computed inline in the spin route:
`Math.max(25 - (fluxCostLevel - 1) * 5, 5)`. -/
def calculateSpinCost (gameState : GameState) : Int :=
  max (25 - (gameState.fluxCostLevel - 1) * 5) 5

/- ### Mutation engine (server/gameLogic.ts) -/

/-- The per-rarity success-rate table of `calculateMutationSuccessRate`,
with the source's fallback of 0.5 for an unknown rarity. -/
def raritySuccessRates (r : String) : ℚ :=
  if r = "common" then 0.85
  else if r = "uncommon" then 0.75
  else if r = "rare" then 0.65
  else if r = "epic" then 0.50
  else if r = "legendary" then 0.35
  else if r = "mythic" then 0.20
  else if r = "void_touched" then 0.10
  else 0.5

/-- Function `calculateMutationSuccessRate`: base rate by rarity, complexity penalty
of `0.1 * (componentCount - 1)` floored at 0.05, device bonus of
`0.05 * (mutationSlotsLevel - 1)`, capped at 0.95. -/
def calculateMutationSuccessRate (baseFragment : Fragment) (components : List Fragment)
    (gameState : GameState) : ℚ :=
  let baseRate := raritySuccessRates baseFragment.rarity
  let complexityPenalty := ((components.length : ℚ) - 1) * 0.1
  let clamped := max (baseRate - complexityPenalty) 0.05
  let deviceBonus := ((gameState.mutationSlotsLevel : ℚ) - 1) * 0.05
  min (clamped + deviceBonus) 0.95

/-- The cost-multiplier table of `calculateMutationCost` (fallback 1). -/
def mutationRarityMultipliers (r : String) : ℚ :=
  if r = "common" then 1
  else if r = "uncommon" then 2
  else if r = "rare" then 4
  else if r = "epic" then 8
  else if r = "legendary" then 16
  else if r = "mythic" then 32
  else if r = "void_touched" then 64
  else 1

/-- Function `calculateMutationCost = floor(100 + 100*mult(base) + Σ 100*0.5*mult(c))`. -/
def calculateMutationCost (baseFragment : Fragment) (components : List Fragment) : Int :=
  let baseCost : ℚ := 100
  let afterBase := baseCost + baseCost * mutationRarityMultipliers baseFragment.rarity
  Int.floor (components.foldl
    (fun acc c => acc + baseCost * 0.5 * mutationRarityMultipliers c.rarity) afterBase)

/-- Membership test `stat in obj` on a stats object. -/
def hasKey (st : List (String × ℚ)) (k : String) : Bool :=
  st.any (fun kv => kv.1 == k)

/-- In-place increment of one key of a stats object. -/
def incKey (st : List (String × ℚ)) (k : String) (d : ℚ) : List (String × ℚ) :=
  st.map (fun kv => if kv.1 == k then (kv.1, kv.2 + d) else kv)

/-- The affixes one component contributes in `performMutation`: one affix per
implicit mod, named `"<componentName> - <modName>"` with source "mutation";
a `component`-typed input has its value scaled by `floor(value * 0.7)`,
a `modifier`-typed input keeps it unscaled. -/
def mutAffixesOf (c : Fragment) : List Affix :=
  c.implicitMods.map (fun m =>
    { name := c.name ++ " - " ++ m.name
      value := if c.type = "component" then ((Int.floor (m.value * (0.7 : ℚ)) : Int) : ℚ) else m.value
      source := "mutation" })

/-- The body of the `components.forEach` loop of `performMutation`: a
`component` adds `floor(stat * 0.5)` to every stat key present in both
objects and appends its scaled implicit mods as affixes; a `modifier`
appends its implicit mods unscaled; anything else is a no-op. -/
def applyComponent (m : Fragment) (c : Fragment) : Fragment :=
  if c.type = "component" then
    let newStats := c.baseStats.foldl
      (fun st kv =>
        if hasKey st kv.1 then incKey st kv.1 ((Int.floor (kv.2 * (0.5 : ℚ)) : Int) : ℚ) else st)
      m.baseStats
    { m with baseStats := newStats, affixes := m.affixes ++ mutAffixesOf c }
  else if c.type = "modifier" then
    { m with affixes := m.affixes ++ mutAffixesOf c }
  else m

/-- The seven-tier rarity order used by the evolution branch. -/
def rarityOrder : List String :=
  ["common", "uncommon", "rare", "epic", "legendary", "mythic", "void_touched"]

/-- The rarity-upgrade branch of `performMutation`: bump the rarity one tier
(if known and not already the top tier) and put "Evolved " before the name. -/
def upgradeRarityStep (f : Fragment) : Fragment :=
  match rarityOrder.indexOf? f.rarity with
  | some i =>
      if i + 1 < rarityOrder.length then
        { f with rarity := rarityOrder.getD (i + 1) f.rarity, name := "Evolved " ++ f.name }
      else f
  | none => f

/-- Function `performMutation(base, components, gameState)`: copy the base fragment
(name with "Mutated " before it, fresh copies of `baseStats`, `implicitMods`
and `affixes`), apply every component in input order, then with probability
0.1 upgrade the rarity one tier. The unseeded `mutationRng.random()` draw is
the explicit input `evolveRoll`. -/
def performMutation (baseFragment : Fragment) (components : List Fragment)
    (gameState : GameState) (evolveRoll : ℚ) : Fragment :=
  let mutatedFragment : Fragment :=
    { baseFragment with
        name := "Mutated " ++ baseFragment.name
        baseStats := baseFragment.baseStats
        implicitMods := baseFragment.implicitMods
        affixes := baseFragment.affixes }
  let afterComponents := components.foldl applyComponent mutatedFragment
  if evolveRoll < 0.1 then upgradeRarityStep afterComponents else afterComponents

/- ### Request-handler state transitions (server routes) -/

/-- A marketplace listing row. -/
structure Listing where
  id : String
  fragmentType : String
  rarity : String
  basePrice : ℚ
  currentPrice : ℚ
  demand : ℚ
  supply : Int
deriving DecidableEq

/-- The persisted state one session's requests act on: the game state, the
stored fragments keyed by id, the marketplace listings, and the storage
layer's id counter. -/
structure World where
  gs : GameState
  fragments : List (Nat × Fragment)
  listings : List Listing
  nextId : Nat
deriving DecidableEq

/-- Fetch a stored fragment by id. -/
def findFragment (w : World) (fid : Nat) : Option Fragment :=
  (w.fragments.find? (fun p => p.1 == fid)).map Prod.snd

/-- Storage operation `deleteFragment`. -/
def deleteFragment (frs : List (Nat × Fragment)) (fid : Nat) : List (Nat × Fragment) :=
  frs.filter (fun p => p.1 != fid)

/-- Storage operation `createFragment`: stores the record under a fresh id. -/
def createFragment (w : World) (f : Fragment) : World :=
  { w with fragments := w.fragments ++ [(w.nextId, f)], nextId := w.nextId + 1 }

/-- JavaScript's `Math.round` (round half toward positive infinity). -/
def jsRound (x : ℚ) : Int := Int.floor (x + 0.5)

/-- The spin route: check `flux < spinCost`, store the freshly generated
fragment (with `affixes: []`, `isCorrupted: false`, `quantity: 1`), debit the
cost and bump `totalSpins`. The four stochastic draws of `generateFragment`
are abstracted as the nondeterministic input `draft`. -/
def spinOp (w : World) (draft : Fragment) : Except String World :=
  let spinCost := calculateSpinCost w.gs
  if w.gs.flux < spinCost then Except.error "Insufficient flux"
  else
    let created : Fragment :=
      { name := draft.name, type := draft.type, rarity := draft.rarity
        baseStats := draft.baseStats, implicitMods := draft.implicitMods
        affixes := [], isCorrupted := false, quantity := 1 }
    let w1 := createFragment w created
    Except.ok { w1 with gs :=
      { w1.gs with flux := w.gs.flux - spinCost, totalSpins := w.gs.totalSpins + 1 } }

/-- The shatter route: credit `calculateShatterValue` and delete the fragment. -/
def shatterOp (w : World) (fid : Nat) : Except String World :=
  match findFragment w fid with
  | none => Except.error "Fragment not found"
  | some fragment =>
      let fluxGained := calculateShatterValue fragment
      Except.ok { w with
        gs := { w.gs with flux := w.gs.flux + fluxGained }
        fragments := deleteFragment w.fragments fid }

/-- The sell route: price from the matching listing's `currentPrice` (default
10), times quantity, rounded, floored at 1; credit it, delete the fragment,
then nudge the listing's supply, demand and price. -/
def sellOp (w : World) (fid : Nat) : Except String World :=
  match findFragment w fid with
  | none => Except.error "Fragment not found"
  | some fragment =>
      let listingId := fragment.type ++ "-" ++ fragment.rarity
      let listing? := w.listings.find? (fun l => l.id == listingId)
      let basePrice : ℚ := match listing? with | some l => l.currentPrice | none => 10
      let price := max 1 (jsRound (basePrice * (fragment.quantity : ℚ)))
      let w1 : World := { w with
        gs := { w.gs with flux := w.gs.flux + price }
        fragments := deleteFragment w.fragments fid }
      match listing? with
      | some l =>
          let newSupply := max 0 (l.supply - 1)
          let newDemand := min 3 (l.demand + 0.01)
          let newPrice : ℚ :=
            max 1 (jsRound (l.currentPrice * (1 + 0.01 * (1 - newDemand))) : Int)
          Except.ok { w1 with listings := w1.listings.map (fun x =>
            if x.id == l.id then
              { x with supply := newSupply, demand := newDemand, currentPrice := newPrice }
            else x) }
      | none => Except.ok w1

/-- The upgrade route: compute the cost, check `flux < cost`, then debit and
bump the chosen level; an unknown track is rejected with no state change. -/
def upgradeOp (w : World) (upgradeType : String) : Except String World :=
  let cost := calculateDeviceUpgradeCost w.gs upgradeType
  if w.gs.flux < cost then Except.error "Insufficient flux"
  else if upgradeType = "spinSpeed" then
    Except.ok { w with gs := { w.gs with
      flux := w.gs.flux - cost
      spinSpeedLevel := w.gs.spinSpeedLevel + 1 } }
  else if upgradeType = "rarityOdds" then
    Except.ok { w with gs := { w.gs with
      flux := w.gs.flux - cost
      rarityOddsLevel := w.gs.rarityOddsLevel + 1 } }
  else if upgradeType = "fluxCost" then
    Except.ok { w with gs := { w.gs with
      flux := w.gs.flux - cost
      fluxCostLevel := w.gs.fluxCostLevel + 1 } }
  else if upgradeType = "mutationSlots" then
    Except.ok { w with gs := { w.gs with
      flux := w.gs.flux - cost
      mutationSlotsLevel := w.gs.mutationSlotsLevel + 1 } }
  else Except.error "Invalid upgrade type"

/-- The mutate route, lines 602-698 of the route file: validate the request,
compute cost and success rate, check flux, then debit and delete the base and
components unconditionally, and store the `performMutation` result only on
success. The two unseeded `Math.random()` draws are the explicit inputs
`successRoll` (compared against the success rate) and `evolveRoll` (passed to
`performMutation`). -/
def mutateOp (w : World) (baseId : Nat) (compIds : List Nat)
    (successRoll evolveRoll : ℚ) : Except String World :=
  if compIds.isEmpty then Except.error "Invalid mutation request"
  else match findFragment w baseId with
  | none => Except.error "Base fragment not found"
  | some baseFragment =>
      if baseFragment.type ≠ "base_item" then
        Except.error "Base fragment must be a base item"
      else
        let componentFragments := (compIds.map (findFragment w)).filterMap id
        if componentFragments.length ≠ compIds.length then
          Except.error "One or more component fragments not found"
        else if 0 < (componentFragments.filter
            (fun f => f.type != "component" && f.type != "modifier")).length then
          Except.error "Components must be of type component or modifier"
        else
          let maxSlots := 2 + w.gs.mutationSlotsLevel
          if (componentFragments.length : Int) > maxSlots then
            Except.error "Too many components"
          else
            let fluxCost := calculateMutationCost baseFragment componentFragments
            let successRate := calculateMutationSuccessRate baseFragment componentFragments w.gs
            if w.gs.flux < fluxCost then Except.error "Insufficient flux"
            else
              let success := successRoll < successRate
              let w1 : World := { w with gs := { w.gs with flux := w.gs.flux - fluxCost } }
              let w2 : World := { w1 with
                fragments := (baseId :: compIds).foldl deleteFragment w1.fragments }
              if success then
                Except.ok (createFragment w2
                  (performMutation baseFragment componentFragments w.gs evolveRoll))
              else Except.ok w2

/-- One request against the world: the five operations of the claim. -/
inductive Op where
  | spin (draft : Fragment)
  | shatter (fid : Nat)
  | sell (fid : Nat)
  | upgrade (upgradeType : String)
  | mutate (baseId : Nat) (compIds : List Nat) (successRoll evolveRoll : ℚ)

/-- Dispatch one operation. -/
def applyOp (w : World) : Op → Except String World
  | Op.spin draft => spinOp w draft
  | Op.shatter fid => shatterOp w fid
  | Op.sell fid => sellOp w fid
  | Op.upgrade upgradeType => upgradeOp w upgradeType
  | Op.mutate baseId compIds sr er => mutateOp w baseId compIds sr er

/-- Run a request sequence; a rejected request leaves the world unchanged
(the route returns an error status before any storage write). -/
def runOps (w : World) : List Op → World
  | [] => w
  | op :: rest =>
      match applyOp w op with
      | Except.ok w1 => runOps w1 rest
      | Except.error _ => runOps w rest

/-- The seed table of `initializeMarketplace` (11 listings, supply 100,
current price equal to base price). -/
def initialListings : List Listing :=
  [ ⟨"component-common", "component", "common", 10, 10, 1.0, 100⟩,
    ⟨"component-uncommon", "component", "uncommon", 50, 50, 1.1, 100⟩,
    ⟨"component-rare", "component", "rare", 200, 200, 1.2, 100⟩,
    ⟨"component-epic", "component", "epic", 800, 800, 1.5, 100⟩,
    ⟨"component-legendary", "component", "legendary", 3000, 3000, 2.0, 100⟩,
    ⟨"modifier-common", "modifier", "common", 15, 15, 0.9, 100⟩,
    ⟨"modifier-uncommon", "modifier", "uncommon", 75, 75, 1.0, 100⟩,
    ⟨"modifier-rare", "modifier", "rare", 300, 300, 1.3, 100⟩,
    ⟨"modifier-epic", "modifier", "epic", 1200, 1200, 1.8, 100⟩,
    ⟨"base_item-rare", "base_item", "rare", 500, 500, 1.1, 100⟩,
    ⟨"base_item-epic", "base_item", "epic", 2000, 2000, 1.4, 100⟩ ]

/-- A freshly created world: the game state the gamestate route creates on
first access (flux 1000, all levels 1) with no fragments. -/
def initialWorld : World :=
  { gs := { flux := 1000, totalSpins := 0, deviceLevel := 1, spinSpeedLevel := 1,
            rarityOddsLevel := 1, fluxCostLevel := 1, mutationSlotsLevel := 1 }
    fragments := []
    listings := initialListings
    nextId := 0 }

/- ### Heap model of performMutation (frame property) -/

/-- Read a heap cell (first binding wins). -/
def lookupH {β : Type} (h : List (Nat × β)) (r : Nat) : Option β :=
  (h.find? (fun p => p.1 == r)).map Prod.snd

/-- Overwrite a heap cell. -/
def writeH {β : Type} (h : List (Nat × β)) (r : Nat) (v : β) : List (Nat × β) :=
  (r, v) :: h

/-- The mutable JavaScript arrays/objects of the fragments, as three heaps of
reference cells plus an allocation counter: every allocated cell has a
reference below `nextRef`. -/
structure StoreH where
  statsH : List (Nat × List (String × ℚ))
  modsH : List (Nat × List ImplicitMod)
  affixH : List (Nat × List Affix)
  nextRef : Nat

/-- A fragment whose `baseStats`, `implicitMods` and `affixes` fields are
references into a `StoreH` (the in-memory object graph of the source). -/
structure FragmentR where
  name : String
  type : String
  rarity : String
  baseStatsRef : Nat
  implicitModsRef : Nat
  affixesRef : Nat
  isCorrupted : Bool
  quantity : Int

/-- The forEach body of `performMutation` on the heap: reads the component's
arrays through its references and writes the updated stats object and
affix array of the result fragment back through the result's references. -/
def applyComponentH (res : FragmentR) (sto : StoreH) (c : FragmentR) : StoreH :=
  let cStats := (lookupH sto.statsH c.baseStatsRef).getD []
  let cMods := (lookupH sto.modsH c.implicitModsRef).getD []
  let rStats := (lookupH sto.statsH res.baseStatsRef).getD []
  let rAffix := (lookupH sto.affixH res.affixesRef).getD []
  if c.type = "component" then
    let newStats := cStats.foldl
      (fun st kv =>
        if hasKey st kv.1 then incKey st kv.1 ((Int.floor (kv.2 * (0.5 : ℚ)) : Int) : ℚ) else st)
      rStats
    let newAffix := rAffix ++ cMods.map (fun m =>
      { name := c.name ++ " - " ++ m.name
        value := ((Int.floor (m.value * (0.7 : ℚ)) : Int) : ℚ)
        source := "mutation" : Affix })
    { sto with
        statsH := writeH sto.statsH res.baseStatsRef newStats
        affixH := writeH sto.affixH res.affixesRef newAffix }
  else if c.type = "modifier" then
    let newAffix := rAffix ++ cMods.map (fun m =>
      { name := c.name ++ " - " ++ m.name, value := m.value, source := "mutation" : Affix })
    { sto with affixH := writeH sto.affixH res.affixesRef newAffix }
  else sto

/-- Function `performMutation` on the heap: the object spread of the base together
with the explicit `[...]`/`{...}` copies allocates three fresh cells holding
copies of the base fragment's arrays, the result fragment points at those
fresh cells, and the component loop mutates only the result's cells. -/
def performMutationH (base : FragmentR) (components : List FragmentR)
    (evolveRoll : ℚ) (sto : StoreH) : FragmentR × StoreH :=
  let n := sto.nextRef
  let bStats := (lookupH sto.statsH base.baseStatsRef).getD []
  let bMods := (lookupH sto.modsH base.implicitModsRef).getD []
  let bAffix := (lookupH sto.affixH base.affixesRef).getD []
  let sto1 : StoreH :=
    { statsH := writeH sto.statsH n bStats
      modsH := writeH sto.modsH (n + 1) bMods
      affixH := writeH sto.affixH (n + 2) bAffix
      nextRef := n + 3 }
  let res0 : FragmentR :=
    { base with
        name := "Mutated " ++ base.name
        baseStatsRef := n
        implicitModsRef := n + 1
        affixesRef := n + 2 }
  let sto2 := components.foldl (applyComponentH res0) sto1
  let res1 :=
    if evolveRoll < 0.1 then
      match rarityOrder.indexOf? res0.rarity with
      | some i =>
          if i + 1 < rarityOrder.length then
            { res0 with rarity := rarityOrder.getD (i + 1) res0.rarity
                        name := "Evolved " ++ res0.name }
          else res0
      | none => res0
    else res0
  (res1, sto2)

/- ### Helper lemmas -/

/-- Every table entry of the shatter multiplier table is non-negative. -/
theorem shatterRarityMultipliers_nonneg (r : String) : 0 ≤ shatterRarityMultipliers r := by
  unfold shatterRarityMultipliers
  split_ifs <;> norm_num

/-- A fragment with non-negative quantity shatters for a non-negative value. -/
theorem calculateShatterValue_nonneg (f : Fragment) (hq : 0 ≤ f.quantity) :
    0 ≤ calculateShatterValue f := by
  unfold calculateShatterValue
  have hm := shatterRarityMultipliers_nonneg f.rarity
  have hq' : (0 : ℚ) ≤ (f.quantity : ℚ) := by exact_mod_cast hq
  exact Int.floor_nonneg.mpr (by positivity)

/-- The rarity ladder only produces the seven known tiers. -/
theorem rarityLadder_mem (a : ℚ) : rarityLadder a ∈ rarityOrder := by
  unfold rarityLadder rarityOrder
  split_ifs <;> simp

/- ### C1: determinism of explicit seeding -/

/-- C1 counterexample: an explicitly supplied integer seed of 0 is falsy in
JavaScript, so `seed || Date.now()` falls back to the clock; two instances
constructed with seed 0 at clock values 1 and 2 already differ at the first
`next()` call, refuting determinism for every explicitly supplied seed. -/
theorem voidRNG_seed_zero_counterexample :
    voidRNGInit (some 0) 1 ≠ voidRNGInit (some 0) 2 ∧
    seedSeq (voidRNGInit (some 0) 1) 1 ≠ seedSeq (voidRNGInit (some 0) 2) 1 := by
  constructor <;> decide

/-- C1 (amended): for every nonzero explicitly supplied integer seed, the
constructed state is independent of the clock, hence two instances
constructed with that seed produce identical seed and `next()` sequences
over any number of calls (and therefore identical random/randomInt/
weightedChoice/rollRarity results, which are functions of the state). -/
theorem voidRNG_seeded_deterministic (s : Int) (hs : s ≠ 0) (now1 now2 : Int) :
    voidRNGInit (some s) now1 = voidRNGInit (some s) now2 ∧
    ∀ n : Nat,
      seedSeq (voidRNGInit (some s) now1) n = seedSeq (voidRNGInit (some s) now2) n ∧
      fracOf (seedSeq (voidRNGInit (some s) now1) n) =
        fracOf (seedSeq (voidRNGInit (some s) now2) n) := by
  have h : voidRNGInit (some s) now1 = voidRNGInit (some s) now2 := by
    simp [voidRNGInit, hs]
  exact ⟨h, fun n => by rw [h]; exact ⟨rfl, rfl⟩⟩

/-- Witness for C1 at seed 42 and clock values 7 and 99. -/
theorem voidRNG_seeded_deterministic_witness :
    voidRNGInit (some 42) 7 = voidRNGInit (some 42) 99 ∧
    ∀ n : Nat,
      seedSeq (voidRNGInit (some 42) 7) n = seedSeq (voidRNGInit (some 42) 99) n ∧
      fracOf (seedSeq (voidRNGInit (some 42) 7) n) =
        fracOf (seedSeq (voidRNGInit (some 42) 99) n) :=
  voidRNG_seeded_deterministic 42 (by decide) 7 99

/- ### C9: getDeviceStats -/

/-- A game state with rarity-odds level 2 (all other levels 1). -/
def gsRarityTwo : GameState :=
  { flux := 0, totalSpins := 0, deviceLevel := 1, spinSpeedLevel := 1,
    rarityOddsLevel := 2, fluxCostLevel := 2, mutationSlotsLevel := 1 }

/-- C9 counterexample: the client variant of `getDeviceStats` computes
`rarityBonus = (rarityOddsLevel - 1) * 0.05`, not the claimed
`(rarityOddsLevel - 1) * 0.0005`: at rarity-odds level 2 it returns 0.05. -/
theorem getDeviceStatsClient_rarityBonus_counterexample :
    (getDeviceStatsClient gsRarityTwo).rarityBonus = 0.05 ∧
    ((gsRarityTwo.rarityOddsLevel : ℚ) - 1) * 0.0005 = 0.0005 ∧
    (0.05 : ℚ) ≠ 0.0005 := by
  refine ⟨?_, ?_, ?_⟩ <;> norm_num [getDeviceStatsClient, gsRarityTwo]

/-- C9 (amended): the server `getDeviceStats` returns
`spinSpeed = 1 + (spinSpeedLevel-1)*0.2`,
`rarityBonus = (rarityOddsLevel-1)*0.0005` and
`mutationSlots = 2 + mutationSlotsLevel`; the client variant agrees on
`spinSpeed` and `mutationSlots` but computes
`rarityBonus = (rarityOddsLevel-1)*0.05`. -/
theorem getDeviceStats_formulas (gameState : GameState) :
    (getDeviceStats gameState).spinSpeed =
      1 + ((gameState.spinSpeedLevel : ℚ) - 1) * 0.2 ∧
    (getDeviceStats gameState).rarityBonus =
      ((gameState.rarityOddsLevel : ℚ) - 1) * 0.0005 ∧
    (getDeviceStats gameState).mutationSlots = 2 + gameState.mutationSlotsLevel ∧
    (getDeviceStatsClient gameState).spinSpeed =
      1 + ((gameState.spinSpeedLevel : ℚ) - 1) * 0.2 ∧
    (getDeviceStatsClient gameState).rarityBonus =
      ((gameState.rarityOddsLevel : ℚ) - 1) * 0.05 ∧
    (getDeviceStatsClient gameState).mutationSlots = 2 + gameState.mutationSlotsLevel :=
  ⟨rfl, rfl, rfl, rfl, rfl, rfl⟩

/- ### C5: calculateMutationSuccessRate -/

/-- C5: for a base of a known rarity tier, a non-empty component list and a
device level of at least 1, the mutation success rate is
`min(max(baseRate - 0.1*(n-1), 0.05) + 0.05*(L-1), 0.95)`, always lies in
[0.05, 0.95], the rate table runs from common = 0.85 down to
void_touched = 0.10, and a common base with one component at device level 1
succeeds with rate 0.85. -/
theorem calculateMutationSuccessRate_spec (baseFragment : Fragment)
    (components : List Fragment) (gameState : GameState)
    (hr : baseFragment.rarity ∈ rarityOrder)
    (hne : components ≠ [])
    (hl : 1 ≤ gameState.mutationSlotsLevel) :
    calculateMutationSuccessRate baseFragment components gameState =
      min (max (raritySuccessRates baseFragment.rarity -
            0.1 * ((components.length : ℚ) - 1)) 0.05 +
          0.05 * ((gameState.mutationSlotsLevel : ℚ) - 1)) 0.95 ∧
    0.05 ≤ calculateMutationSuccessRate baseFragment components gameState ∧
    calculateMutationSuccessRate baseFragment components gameState ≤ 0.95 ∧
    raritySuccessRates "common" = 0.85 ∧
    raritySuccessRates "uncommon" = 0.75 ∧
    raritySuccessRates "rare" = 0.65 ∧
    raritySuccessRates "epic" = 0.50 ∧
    raritySuccessRates "legendary" = 0.35 ∧
    raritySuccessRates "mythic" = 0.20 ∧
    raritySuccessRates "void_touched" = 0.10 ∧
    (baseFragment.rarity = "common" → components.length = 1 →
      gameState.mutationSlotsLevel = 1 →
      calculateMutationSuccessRate baseFragment components gameState = 0.85) := by
  have hform : calculateMutationSuccessRate baseFragment components gameState =
      min (max (raritySuccessRates baseFragment.rarity -
            0.1 * ((components.length : ℚ) - 1)) 0.05 +
          0.05 * ((gameState.mutationSlotsLevel : ℚ) - 1)) 0.95 := by
    unfold calculateMutationSuccessRate
    rw [mul_comm ((components.length : ℚ) - 1) 0.1,
        mul_comm ((gameState.mutationSlotsLevel : ℚ) - 1) 0.05]
  have hbonus : (0 : ℚ) ≤ 0.05 * ((gameState.mutationSlotsLevel : ℚ) - 1) := by
    have h1 : (1 : ℚ) ≤ (gameState.mutationSlotsLevel : ℚ) := by exact_mod_cast hl
    nlinarith
  have hclamp : (0.05 : ℚ) ≤ max (raritySuccessRates baseFragment.rarity -
      0.1 * ((components.length : ℚ) - 1)) 0.05 := le_max_right _ _
  refine ⟨hform, ?_, ?_, by simp [raritySuccessRates], by simp [raritySuccessRates],
    by simp [raritySuccessRates], by simp [raritySuccessRates],
    by simp [raritySuccessRates], by simp [raritySuccessRates],
    by simp [raritySuccessRates], ?_⟩
  · rw [hform]
    exact le_min (by linarith) (by norm_num)
  · rw [hform]
    exact min_le_right _ _
  · intro h1 h2 h3
    rw [hform, h1, h2, h3]
    simp [raritySuccessRates]
    norm_num [min_def, max_def]

/-- Witness for C5: a concrete common base_item, one common component, a
fresh game state. -/
theorem calculateMutationSuccessRate_spec_witness :
    calculateMutationSuccessRate
        { name := "Sword", type := "base_item", rarity := "common",
          baseStats := [("power", 10)], implicitMods := [], affixes := [],
          isCorrupted := false, quantity := 1 }
        [ { name := "Void Iron", type := "component", rarity := "common",
            baseStats := [("enhancement", 8)], implicitMods := [], affixes := [],
            isCorrupted := false, quantity := 1 } ]
        { flux := 1000, totalSpins := 0, deviceLevel := 1, spinSpeedLevel := 1,
          rarityOddsLevel := 1, fluxCostLevel := 1, mutationSlotsLevel := 1 } = 0.85 :=
  (calculateMutationSuccessRate_spec _ _ _ (by simp [rarityOrder]) (by simp)
    (by norm_num)).2.2.2.2.2.2.2.2.2.2 rfl rfl rfl

/- ### C6: rollRarity -/

/-- C6: for every non-negative bonus, `rollRarity` advances the generator by
exactly one `next()` draw, maps `min(roll + bonus, 0.999999)` through the
strict descending threshold ladder, always produces one of the seven tiers,
and exact equality with each threshold falls to the next lower tier. -/
theorem rollRarity_spec (s : Int) (bonusChance : ℚ) (hb : 0 ≤ bonusChance) :
    (rollRarity bonusChance s).2 = lcgStep s ∧
    (rollRarity bonusChance s).1 =
      rarityLadder (min (fracOf (lcgStep s) + bonusChance) 0.999999) ∧
    (rollRarity bonusChance s).1 ∈ rarityOrder ∧
    rarityLadder 0.8 = "common" ∧
    rarityLadder 0.95 = "uncommon" ∧
    rarityLadder 0.99 = "rare" ∧
    rarityLadder 0.999 = "epic" ∧
    rarityLadder 0.9999 = "legendary" ∧
    rarityLadder 0.999995 = "mythic" := by
  refine ⟨rfl, rfl, rarityLadder_mem _, ?_, ?_, ?_, ?_, ?_, ?_⟩ <;>
    norm_num [rarityLadder]

/-- Witness for C6 at state 5 and bonus 0. -/
theorem rollRarity_spec_witness :
    (rollRarity 0 5).2 = lcgStep 5 ∧
    (rollRarity 0 5).1 = rarityLadder (min (fracOf (lcgStep 5) + 0) 0.999999) ∧
    (rollRarity 0 5).1 ∈ rarityOrder ∧
    rarityLadder 0.8 = "common" ∧
    rarityLadder 0.95 = "uncommon" ∧
    rarityLadder 0.99 = "rare" ∧
    rarityLadder 0.999 = "epic" ∧
    rarityLadder 0.9999 = "legendary" ∧
    rarityLadder 0.999995 = "mythic" :=
  rollRarity_spec 5 0 (by norm_num)

/- ### C2: reachable-state invariants -/

/-- The inductive invariant: non-negative flux, all four levels at least 1,
and every stored fragment has non-negative quantity. -/
def WorldInv (w : World) : Prop :=
  0 ≤ w.gs.flux ∧ 1 ≤ w.gs.spinSpeedLevel ∧ 1 ≤ w.gs.rarityOddsLevel ∧
  1 ≤ w.gs.fluxCostLevel ∧ 1 ≤ w.gs.mutationSlotsLevel ∧
  ∀ p ∈ w.fragments, 0 ≤ p.2.quantity

/-- A fragment returned by `findFragment` is stored in the world. -/
theorem findFragment_mem {w : World} {fid : Nat} {f : Fragment}
    (h : findFragment w fid = some f) : ∃ p ∈ w.fragments, p.2 = f := by
  unfold findFragment at h
  cases hfind : w.fragments.find? (fun p => p.1 == fid) with
  | none => rw [hfind] at h; cases h
  | some p =>
      rw [hfind] at h
      exact ⟨p, List.mem_of_find?_eq_some hfind, by simpa using h⟩

/-- Deleting a fragment only removes entries. -/
theorem mem_deleteFragment {frs : List (Nat × Fragment)} {fid : Nat} {p : Nat × Fragment}
    (h : p ∈ deleteFragment frs fid) : p ∈ frs :=
  (List.mem_filter.mp h).1

/-- Deleting a batch of fragments only removes entries. -/
theorem mem_foldl_deleteFragment (ids : List Nat) :
    ∀ (frs : List (Nat × Fragment)) (p : Nat × Fragment),
      p ∈ ids.foldl deleteFragment frs → p ∈ frs := by
  induction ids with
  | nil => intro frs p h; exact h
  | cons i rest ih =>
      intro frs p h
      rw [List.foldl_cons] at h
      exact mem_deleteFragment (ih (deleteFragment frs i) p h)

/-- The forEach body of `performMutation` does not touch `quantity`. -/
theorem applyComponent_quantity (m c : Fragment) :
    (applyComponent m c).quantity = m.quantity := by
  unfold applyComponent
  split_ifs <;> rfl

/-- Applying all components does not touch `quantity`. -/
theorem foldl_applyComponent_quantity (components : List Fragment) :
    ∀ m : Fragment, (components.foldl applyComponent m).quantity = m.quantity := by
  induction components with
  | nil => intro m; rfl
  | cons c rest ih =>
      intro m
      rw [List.foldl_cons, ih, applyComponent_quantity]

/-- The rarity-upgrade branch does not touch `quantity`. -/
theorem upgradeRarityStep_quantity (f : Fragment) :
    (upgradeRarityStep f).quantity = f.quantity := by
  unfold upgradeRarityStep
  cases rarityOrder.indexOf? f.rarity with
  | none => rfl
  | some i =>
      by_cases hi : i + 1 < rarityOrder.length <;> simp [hi]

/-- The mutation result keeps the base fragment's quantity. -/
theorem performMutation_quantity (baseFragment : Fragment) (components : List Fragment)
    (gameState : GameState) (evolveRoll : ℚ) :
    (performMutation baseFragment components gameState evolveRoll).quantity =
      baseFragment.quantity := by
  unfold performMutation
  by_cases hr : evolveRoll < 0.1 <;>
    simp [hr, upgradeRarityStep_quantity, foldl_applyComponent_quantity]

/-- Crediting at least `max 1 x` keeps flux non-negative. -/
theorem flux_add_max_nonneg (flux x : Int) (h : 0 ≤ flux) : 0 ≤ flux + max 1 x := by
  have := le_max_left 1 x
  omega

/-- The spin route preserves the invariant. -/
theorem spinOp_inv {w : World} {draft : Fragment} {w1 : World}
    (h : spinOp w draft = Except.ok w1) (hw : WorldInv w) : WorldInv w1 := by
  obtain ⟨hf, h1, h2, h3, h4, hq⟩ := hw
  simp only [spinOp] at h
  split at h
  · cases h
  · rename_i hc
    simp only [Except.ok.injEq] at h
    subst h
    refine ⟨?_, h1, h2, h3, h4, ?_⟩
    · dsimp only [createFragment]
      omega
    · intro p hp
      dsimp only [createFragment] at hp
      simp only [List.mem_append, List.mem_singleton] at hp
      rcases hp with hp | hp
      · exact hq p hp
      · subst hp
        norm_num

/-- The shatter route preserves the invariant. -/
theorem shatterOp_inv {w : World} {fid : Nat} {w1 : World}
    (h : shatterOp w fid = Except.ok w1) (hw : WorldInv w) : WorldInv w1 := by
  obtain ⟨hf, h1, h2, h3, h4, hq⟩ := hw
  simp only [shatterOp] at h
  split at h
  · cases h
  · rename_i fragment hfind
    simp only [Except.ok.injEq] at h
    subst h
    obtain ⟨p, hpmem, hpf⟩ := findFragment_mem hfind
    have hqf : 0 ≤ fragment.quantity := hpf ▸ hq p hpmem
    have hval := calculateShatterValue_nonneg fragment hqf
    refine ⟨by dsimp only; omega, h1, h2, h3, h4, ?_⟩
    intro q hqmem
    exact hq q (mem_deleteFragment hqmem)

/-- The sell route preserves the invariant. -/
theorem sellOp_inv {w : World} {fid : Nat} {w1 : World}
    (h : sellOp w fid = Except.ok w1) (hw : WorldInv w) : WorldInv w1 := by
  obtain ⟨hf, h1, h2, h3, h4, hq⟩ := hw
  simp only [sellOp] at h
  split at h
  · cases h
  · rename_i fragment hfind
    split at h
    · rename_i l hlist
      simp only [Except.ok.injEq] at h
      subst h
      refine ⟨?_, h1, h2, h3, h4, ?_⟩
      · dsimp only
        exact flux_add_max_nonneg _ _ hf
      · intro q hqmem
        dsimp only at hqmem
        exact hq q (mem_deleteFragment hqmem)
    · rename_i hlist
      simp only [Except.ok.injEq] at h
      subst h
      refine ⟨?_, h1, h2, h3, h4, ?_⟩
      · dsimp only
        exact flux_add_max_nonneg _ _ hf
      · intro q hqmem
        dsimp only at hqmem
        exact hq q (mem_deleteFragment hqmem)

/-- The upgrade route preserves the invariant. -/
theorem upgradeOp_inv {w : World} {upgradeType : String} {w1 : World}
    (h : upgradeOp w upgradeType = Except.ok w1) (hw : WorldInv w) : WorldInv w1 := by
  obtain ⟨hf, h1, h2, h3, h4, hq⟩ := hw
  simp only [upgradeOp] at h
  split at h
  · cases h
  · rename_i hc
    split at h
    · simp only [Except.ok.injEq] at h
      subst h
      exact ⟨by dsimp only; omega, by dsimp only; omega, h2, h3, h4, hq⟩
    · split at h
      · simp only [Except.ok.injEq] at h
        subst h
        exact ⟨by dsimp only; omega, h1, by dsimp only; omega, h3, h4, hq⟩
      · split at h
        · simp only [Except.ok.injEq] at h
          subst h
          exact ⟨by dsimp only; omega, h1, h2, by dsimp only; omega, h4, hq⟩
        · split at h
          · simp only [Except.ok.injEq] at h
            subst h
            exact ⟨by dsimp only; omega, h1, h2, h3, by dsimp only; omega, hq⟩
          · cases h

/-- The mutate route preserves the invariant. -/
theorem mutateOp_inv {w : World} {baseId : Nat} {compIds : List Nat} {sr er : ℚ} {w1 : World}
    (h : mutateOp w baseId compIds sr er = Except.ok w1) (hw : WorldInv w) : WorldInv w1 := by
  obtain ⟨hf, h1, h2, h3, h4, hq⟩ := hw
  simp only [mutateOp] at h
  split at h
  · cases h
  · split at h
    · cases h
    · rename_i baseFragment hfind
      split at h
      · cases h
      · split at h
        · cases h
        · split at h
          · cases h
          · split at h
            · cases h
            · split at h
              · cases h
              · rename_i hcost
                obtain ⟨p, hpmem, hpf⟩ := findFragment_mem hfind
                have hqb : 0 ≤ baseFragment.quantity := hpf ▸ hq p hpmem
                split at h
                · simp only [Except.ok.injEq] at h
                  subst h
                  refine ⟨?_, h1, h2, h3, h4, ?_⟩
                  · dsimp only [createFragment]
                    omega
                  · intro q hqmem
                    dsimp only [createFragment] at hqmem
                    simp only [List.mem_append, List.mem_singleton] at hqmem
                    rcases hqmem with hqmem | hqmem
                    · exact hq q (mem_foldl_deleteFragment _ _ _ hqmem)
                    · subst hqmem
                      simpa [performMutation_quantity] using hqb
                · simp only [Except.ok.injEq] at h
                  subst h
                  refine ⟨?_, h1, h2, h3, h4, ?_⟩
                  · dsimp only
                    omega
                  · intro q hqmem
                    dsimp only at hqmem
                    exact hq q (mem_foldl_deleteFragment _ _ _ hqmem)

/-- Every operation preserves the invariant. -/
theorem applyOp_inv {w : World} {op : Op} {w1 : World}
    (h : applyOp w op = Except.ok w1) (hw : WorldInv w) : WorldInv w1 := by
  cases op with
  | spin draft => exact spinOp_inv h hw
  | shatter fid => exact shatterOp_inv h hw
  | sell fid => exact sellOp_inv h hw
  | upgrade upgradeType => exact upgradeOp_inv h hw
  | mutate baseId compIds sr er => exact mutateOp_inv h hw

/-- Running any request sequence preserves the invariant. -/
theorem runOps_inv (ops : List Op) :
    ∀ w : World, WorldInv w → WorldInv (runOps w ops) := by
  induction ops with
  | nil => intro w hw; exact hw
  | cons op rest ih =>
      intro w hw
      unfold runOps
      cases hstep : applyOp w op with
      | ok w1 => exact ih w1 (applyOp_inv hstep hw)
      | error e => exact ih w hw

/-- C2: from a freshly created game state (flux 1000, all levels 1), every
state reachable by any sequence of spin, shatter, sell, upgrade and mutate
requests keeps `flux ≥ 0` and all four upgrade levels `≥ 1`. -/
theorem reachable_world_invariants (ops : List Op) :
    0 ≤ (runOps initialWorld ops).gs.flux ∧
    1 ≤ (runOps initialWorld ops).gs.spinSpeedLevel ∧
    1 ≤ (runOps initialWorld ops).gs.rarityOddsLevel ∧
    1 ≤ (runOps initialWorld ops).gs.fluxCostLevel ∧
    1 ≤ (runOps initialWorld ops).gs.mutationSlotsLevel := by
  have hinit : WorldInv initialWorld := by
    refine ⟨by norm_num [initialWorld], by norm_num [initialWorld],
      by norm_num [initialWorld], by norm_num [initialWorld],
      by norm_num [initialWorld], ?_⟩
    intro p hp
    simp [initialWorld] at hp
  have h := runOps_inv ops initialWorld hinit
  exact ⟨h.1, h.2.1, h.2.2.1, h.2.2.2.1, h.2.2.2.2.1⟩

/- ### C3 and C4: the mutate route's effects and rejections -/

/-- When the resolved component list has full length, every id resolves. -/
theorem filterMap_id_length_all_isSome {α : Type} (f : Nat → Option α) (l : List Nat)
    (h : ((l.map f).filterMap id).length = l.length) : ∀ a ∈ l, (f a).isSome := by
  induction l with
  | nil => intro a ha; cases ha
  | cons x xs ih =>
      have hle : ((xs.map f).filterMap id).length ≤ xs.length := by
        calc ((xs.map f).filterMap id).length ≤ (xs.map f).length :=
              List.length_filterMap_le _ _
          _ = xs.length := List.length_map _ _
      intro a ha
      cases hfx : f x with
      | none =>
          exfalso
          simp only [List.map_cons, List.filterMap_cons, hfx, id_eq, List.length_cons] at h
          omega
      | some v =>
          rcases List.mem_cons.mp ha with rfl | ha2
          · simp [hfx]
          · refine ih ?_ a ha2
            simp only [List.map_cons, List.filterMap_cons, hfx, id_eq, List.length_cons] at h
            omega
  
/-- Absence of a fragment id is stable under deleting another id. -/
theorem find?_deleteFragment_none {frs : List (Nat × Fragment)} {fid j : Nat}
    (h : frs.find? (fun p => p.1 == fid) = none) :
    (deleteFragment frs j).find? (fun p => p.1 == fid) = none := by
  rw [List.find?_eq_none] at h ⊢
  intro x hx
  exact h x (mem_deleteFragment hx)

/-- Deleting an id removes every binding of that id. -/
theorem find?_deleteFragment_self (frs : List (Nat × Fragment)) (fid : Nat) :
    (deleteFragment frs fid).find? (fun p => p.1 == fid) = none := by
  rw [List.find?_eq_none]
  intro x hx
  have hne := (List.mem_filter.mp hx).2
  simp only [bne_iff_ne, ne_eq] at hne
  simp [hne]

/-- Absence of a fragment id is stable under a batch of deletions. -/
theorem find?_none_foldl_deleteFragment (ids : List Nat) (fid : Nat) :
    ∀ frs : List (Nat × Fragment), frs.find? (fun p => p.1 == fid) = none →
      (ids.foldl deleteFragment frs).find? (fun p => p.1 == fid) = none := by
  induction ids with
  | nil => intro frs h; exact h
  | cons i rest ih =>
      intro frs h
      rw [List.foldl_cons]
      exact ih _ (find?_deleteFragment_none h)

/-- After deleting a batch of ids, no binding of any deleted id remains. -/
theorem find?_foldl_deleteFragment_mem (ids : List Nat) (fid : Nat) (hmem : fid ∈ ids) :
    ∀ frs : List (Nat × Fragment),
      (ids.foldl deleteFragment frs).find? (fun p => p.1 == fid) = none := by
  induction ids with
  | nil => cases hmem
  | cons i rest ih =>
      intro frs
      rw [List.foldl_cons]
      rcases List.mem_cons.mp hmem with rfl | hmem2
      · exact find?_none_foldl_deleteFragment rest fid _ (find?_deleteFragment_self frs fid)
      · exact ih hmem2 _

/-- In a well-formed store every stored id is below the id counter. -/
theorem findFragment_key_lt {w : World} {fid : Nat}
    (hwf : ∀ p ∈ w.fragments, p.1 < w.nextId) {f : Fragment}
    (h : findFragment w fid = some f) : fid < w.nextId := by
  unfold findFragment at h
  cases hfind : w.fragments.find? (fun p => p.1 == fid) with
  | none => rw [hfind] at h; cases h
  | some p =>
      have hp := List.find?_some hfind
      have hmem := List.mem_of_find?_eq_some hfind
      have hkey : p.1 = fid := by simpa using hp
      exact hkey ▸ hwf p hmem

/-- Evaluation of the mutate route when every precondition holds: the chain
of checks falls through and the route debits the cost and deletes the base
and components, storing the mutation result only when the draw succeeds. -/
theorem mutateOp_eval (w : World) (baseId : Nat) (compIds : List Nat)
    (sr er : ℚ) (baseFragment : Fragment)
    (hne : compIds ≠ [])
    (hfind : findFragment w baseId = some baseFragment)
    (hbt : baseFragment.type = "base_item")
    (hlen : ((compIds.map (findFragment w)).filterMap id).length = compIds.length)
    (hfilter : ((compIds.map (findFragment w)).filterMap id).filter
      (fun f => f.type != "component" && f.type != "modifier") = [])
    (hslots2 : ¬ ((((compIds.map (findFragment w)).filterMap id).length : Int) >
      2 + w.gs.mutationSlotsLevel))
    (hcost2 : ¬ (w.gs.flux < calculateMutationCost baseFragment
      ((compIds.map (findFragment w)).filterMap id))) :
    (sr < calculateMutationSuccessRate baseFragment
        ((compIds.map (findFragment w)).filterMap id) w.gs →
      mutateOp w baseId compIds sr er = Except.ok (createFragment
        { w with
          gs := { w.gs with flux := w.gs.flux - calculateMutationCost baseFragment ((compIds.map (findFragment w)).filterMap id) }
          fragments := (baseId :: compIds).foldl deleteFragment w.fragments }
        (performMutation baseFragment ((compIds.map (findFragment w)).filterMap id) w.gs er))) ∧
    (¬ sr < calculateMutationSuccessRate baseFragment
        ((compIds.map (findFragment w)).filterMap id) w.gs →
      mutateOp w baseId compIds sr er = Except.ok
        { w with
          gs := { w.gs with flux := w.gs.flux - calculateMutationCost baseFragment ((compIds.map (findFragment w)).filterMap id) }
          fragments := (baseId :: compIds).foldl deleteFragment w.fragments }) := by
  have h1 : ¬ (compIds.isEmpty = true) := by simp [hne]
  have hred : mutateOp w baseId compIds sr er =
      (if sr < calculateMutationSuccessRate baseFragment
          ((compIds.map (findFragment w)).filterMap id) w.gs then
        Except.ok (createFragment
          { w with
            gs := { w.gs with flux := w.gs.flux - calculateMutationCost baseFragment ((compIds.map (findFragment w)).filterMap id) }
            fragments := (baseId :: compIds).foldl deleteFragment w.fragments }
          (performMutation baseFragment ((compIds.map (findFragment w)).filterMap id) w.gs er))
      else
        Except.ok
          { w with
            gs := { w.gs with flux := w.gs.flux - calculateMutationCost baseFragment ((compIds.map (findFragment w)).filterMap id) }
            fragments := (baseId :: compIds).foldl deleteFragment w.fragments }) := by
    simp only [mutateOp]
    rw [if_neg h1, hfind]
    dsimp only
    rw [if_neg (by simp [hbt])]
    rw [if_neg (not_ne_iff.mpr hlen)]
    rw [if_neg (by rw [hfilter]; simp)]
    rw [if_neg hslots2]
    rw [if_neg hcost2]
  constructor
  · intro hsucc
    rw [hred, if_pos hsucc]
  · intro hsucc
    rw [hred, if_neg hsucc]

/-- C3: a mutation request that passes every precondition is debited the full
computed flux cost and has the base and all listed component fragments
deleted, whether the success draw succeeds or fails; when the draw fails,
the debit and the deletions are the only state changes. -/
theorem mutateOp_consumes_and_debits (w : World) (baseId : Nat) (compIds : List Nat)
    (sr er : ℚ) (baseFragment : Fragment)
    (hne : compIds ≠ [])
    (hfind : findFragment w baseId = some baseFragment)
    (hbt : baseFragment.type = "base_item")
    (hlen : ((compIds.map (findFragment w)).filterMap id).length = compIds.length)
    (htypes : ∀ f ∈ (compIds.map (findFragment w)).filterMap id,
      f.type = "component" ∨ f.type = "modifier")
    (hslots : (((compIds.map (findFragment w)).filterMap id).length : Int) ≤
      2 + w.gs.mutationSlotsLevel)
    (hcost : calculateMutationCost baseFragment
      ((compIds.map (findFragment w)).filterMap id) ≤ w.gs.flux)
    (hwf : ∀ p ∈ w.fragments, p.1 < w.nextId) :
    ∃ w' : World, mutateOp w baseId compIds sr er = Except.ok w' ∧
      w'.gs.flux = w.gs.flux - calculateMutationCost baseFragment
        ((compIds.map (findFragment w)).filterMap id) ∧
      w'.listings = w.listings ∧
      (∀ fid ∈ baseId :: compIds, findFragment w' fid = none) ∧
      (¬ sr < calculateMutationSuccessRate baseFragment
          ((compIds.map (findFragment w)).filterMap id) w.gs →
        w' = { w with
          gs := { w.gs with flux := w.gs.flux - calculateMutationCost baseFragment ((compIds.map (findFragment w)).filterMap id) }
          fragments := (baseId :: compIds).foldl deleteFragment w.fragments }) := by
  have hempty : compIds.isEmpty = false := List.isEmpty_eq_false.mpr hne
  have hfilter : ((compIds.map (findFragment w)).filterMap id).filter
      (fun f => f.type != "component" && f.type != "modifier") = [] := by
    rw [List.filter_eq_nil_iff]
    intro f hf
    rcases htypes f hf with h | h <;> simp [h]
  have hslots2 : ¬ ((((compIds.map (findFragment w)).filterMap id).length : Int) >
      2 + w.gs.mutationSlotsLevel) := not_lt.mpr hslots
  have hcost2 : ¬ (w.gs.flux < calculateMutationCost baseFragment
      ((compIds.map (findFragment w)).filterMap id)) := not_lt.mpr hcost
  have hdel : ∀ fid ∈ baseId :: compIds,
      ((baseId :: compIds).foldl deleteFragment w.fragments).find?
        (fun p => p.1 == fid) = none :=
    fun fid hmem => find?_foldl_deleteFragment_mem _ fid hmem w.fragments
  have hlt : ∀ fid ∈ baseId :: compIds, fid < w.nextId := by
    intro fid hmem
    rcases List.mem_cons.mp hmem with rfl | hm2
    · exact findFragment_key_lt hwf hfind
    · have hs := filterMap_id_length_all_isSome (findFragment w) compIds hlen fid hm2
      obtain ⟨f, hf⟩ := Option.isSome_iff_exists.mp hs
      exact findFragment_key_lt hwf hf
  have heval := mutateOp_eval w baseId compIds sr er baseFragment hne hfind hbt hlen
    hfilter hslots2 hcost2
  by_cases hsucc : sr < calculateMutationSuccessRate baseFragment
      ((compIds.map (findFragment w)).filterMap id) w.gs
  · refine ⟨_, heval.1 hsucc, rfl, rfl, ?_, fun hns => absurd hsucc hns⟩
    intro fid hmem
    unfold findFragment
    dsimp only [createFragment]
    rw [List.find?_append, hdel fid hmem]
    have hne2 : (w.nextId == fid) = false := by
      have := hlt fid hmem
      simp only [beq_eq_false_iff_ne, ne_eq]
      omega
    simp [List.find?, hne2]
  · refine ⟨_, heval.2 hsucc, rfl, rfl, ?_, fun _ => rfl⟩
    intro fid hmem
    unfold findFragment
    dsimp only
    rw [hdel fid hmem]
    rfl

/-- A concrete common base item used for the C3 witness. -/
def baseC3 : Fragment :=
  { name := "Sword", type := "base_item", rarity := "common",
    baseStats := [("power", 10), ("defense", 5), ("speed", 2)],
    implicitMods := [⟨"Increased Damage", 10⟩],
    affixes := [], isCorrupted := false, quantity := 1 }

/-- A concrete common component used for the C3 witness. -/
def compC3 : Fragment :=
  { name := "Void Iron", type := "component", rarity := "common",
    baseStats := [("enhancement", 10)],
    implicitMods := [⟨"Flux Regeneration", 10⟩],
    affixes := [], isCorrupted := false, quantity := 1 }

/-- A concrete world holding the two fragments above. -/
def worldC3 : World :=
  { gs := { flux := 1000, totalSpins := 0, deviceLevel := 1, spinSpeedLevel := 1,
            rarityOddsLevel := 1, fluxCostLevel := 1, mutationSlotsLevel := 1 }
    fragments := [(0, baseC3), (1, compC3)]
    listings := []
    nextId := 2 }

/-- Witness for C3: the concrete request (base 0, component 1) with a failing
success draw of 0.99 against a rate of 0.85. -/
theorem mutateOp_consumes_and_debits_witness :
    ∃ w' : World, mutateOp worldC3 0 [1] 0.99 0.5 = Except.ok w' ∧
      w'.gs.flux = worldC3.gs.flux - calculateMutationCost baseC3
        (([1].map (findFragment worldC3)).filterMap id) ∧
      w'.listings = worldC3.listings ∧
      (∀ fid ∈ 0 :: [1], findFragment w' fid = none) ∧
      (¬ (0.99 : ℚ) < calculateMutationSuccessRate baseC3
          (([1].map (findFragment worldC3)).filterMap id) worldC3.gs →
        w' = { worldC3 with
          gs := { worldC3.gs with flux := worldC3.gs.flux - calculateMutationCost baseC3 (([1].map (findFragment worldC3)).filterMap id) }
          fragments := (0 :: [1]).foldl deleteFragment worldC3.fragments }) := by
  refine mutateOp_consumes_and_debits worldC3 0 [1] 0.99 0.5 baseC3
    (by decide) rfl rfl rfl ?_ ?_ ?_ ?_
  · intro f hf
    rw [show (([1].map (findFragment worldC3)).filterMap id) = [compC3] from rfl] at hf
    rcases List.mem_singleton.mp hf with rfl
    left
    rfl
  · show ((1 : Nat) : Int) ≤ 2 + 1
    norm_num
  · show calculateMutationCost baseC3 [compC3] ≤ 1000
    simp [calculateMutationCost, mutationRarityMultipliers, baseC3, compC3]
    norm_num
  · intro p hp
    rw [show worldC3.fragments = [(0, baseC3), (1, compC3)] from rfl] at hp
    rcases List.mem_cons.mp hp with rfl | hp
    · decide
    · rcases List.mem_cons.mp hp with rfl | hp
      · decide
      · cases hp

/-- C4: a mutation request violating a precondition — wrong base type, a
component that is neither `component` nor `modifier`, too many components,
or insufficient flux for the computed cost — is rejected: the route returns
an error before any state change (the world transition yields no new state). -/
theorem mutateOp_rejects_on_violation (w : World) (baseId : Nat) (compIds : List Nat)
    (sr er : ℚ) (baseFragment : Fragment)
    (hne : compIds ≠ [])
    (hfind : findFragment w baseId = some baseFragment)
    (hlen : ((compIds.map (findFragment w)).filterMap id).length = compIds.length)
    (hviol :
      baseFragment.type ≠ "base_item" ∨
      (∃ f ∈ (compIds.map (findFragment w)).filterMap id,
        f.type ≠ "component" ∧ f.type ≠ "modifier") ∨
      ((((compIds.map (findFragment w)).filterMap id).length : Int) >
        2 + w.gs.mutationSlotsLevel) ∨
      (w.gs.flux < calculateMutationCost baseFragment
        ((compIds.map (findFragment w)).filterMap id))) :
    ∃ msg : String, mutateOp w baseId compIds sr er = Except.error msg := by
  have h1 : ¬ (compIds.isEmpty = true) := by simp [hne]
  by_cases hbt : baseFragment.type ≠ "base_item"
  · refine ⟨"Base fragment must be a base item", ?_⟩
    simp only [mutateOp]
    rw [if_neg h1, hfind]
    dsimp only
    rw [if_pos hbt]
  · by_cases hbad : 0 < (((compIds.map (findFragment w)).filterMap id).filter
        (fun f => f.type != "component" && f.type != "modifier")).length
    · refine ⟨"Components must be of type component or modifier", ?_⟩
      simp only [mutateOp]
      rw [if_neg h1, hfind]
      dsimp only
      rw [if_neg hbt, if_neg (not_ne_iff.mpr hlen), if_pos hbad]
    · by_cases hslots : ((((compIds.map (findFragment w)).filterMap id).length : Int) >
          2 + w.gs.mutationSlotsLevel)
      · refine ⟨"Too many components", ?_⟩
        simp only [mutateOp]
        rw [if_neg h1, hfind]
        dsimp only
        rw [if_neg hbt, if_neg (not_ne_iff.mpr hlen), if_neg hbad, if_pos hslots]
      · by_cases hcost : w.gs.flux < calculateMutationCost baseFragment
            ((compIds.map (findFragment w)).filterMap id)
        · refine ⟨"Insufficient flux", ?_⟩
          simp only [mutateOp]
          rw [if_neg h1, hfind]
          dsimp only
          rw [if_neg hbt, if_neg (not_ne_iff.mpr hlen), if_neg hbad, if_neg hslots,
            if_pos hcost]
        · exfalso
          push_neg at hbt
          rcases hviol with hv | hv | hv | hv
          · exact hv hbt
          · obtain ⟨f, hfmem, hf1, hf2⟩ := hv
            exact hbad (List.length_pos_of_mem
              (List.mem_filter.mpr ⟨hfmem, by simp [hf1, hf2]⟩))
          · exact hslots hv
          · exact hcost hv

/-- A fragment of the wrong type (a component) used as mutation base. -/
def baseC4 : Fragment :=
  { name := "Crystal Shard", type := "component", rarity := "common",
    baseStats := [("enhancement", 7)],
    implicitMods := [⟨"Increased Speed", 6⟩],
    affixes := [], isCorrupted := false, quantity := 1 }

/-- A concrete component for the C4 witness. -/
def compC4 : Fragment :=
  { name := "Quantum Dust", type := "modifier", rarity := "common",
    baseStats := [("modifier", 4)],
    implicitMods := [⟨"Void Affinity", 9⟩],
    affixes := [], isCorrupted := false, quantity := 1 }

/-- A concrete world for the C4 witness. -/
def worldC4 : World :=
  { gs := { flux := 1000, totalSpins := 0, deviceLevel := 1, spinSpeedLevel := 1,
            rarityOddsLevel := 1, fluxCostLevel := 1, mutationSlotsLevel := 1 }
    fragments := [(0, baseC4), (1, compC4)]
    listings := []
    nextId := 2 }

/-- Witness for C4: using a component-typed fragment as the base violates the
base-type precondition, and the request is rejected. -/
theorem mutateOp_rejects_on_violation_witness :
    ∃ msg : String, mutateOp worldC4 0 [1] 0.5 0.5 = Except.error msg :=
  mutateOp_rejects_on_violation worldC4 0 [1] 0.5 0.5 baseC4
    (by decide) rfl rfl (Or.inl (by decide))

/- ### C7: mutation affixes -/

/-- One component appends exactly its contributed affixes. -/
theorem applyComponent_affixes (m c : Fragment)
    (h : c.type = "component" ∨ c.type = "modifier") :
    (applyComponent m c).affixes = m.affixes ++ mutAffixesOf c := by
  rcases h with h | h <;> simp [applyComponent, h]

/-- The component loop appends each component's contributed affixes in input
order after the starting affixes. -/
theorem foldl_applyComponent_affixes (components : List Fragment) :
    ∀ m : Fragment, (∀ c ∈ components, c.type = "component" ∨ c.type = "modifier") →
      (components.foldl applyComponent m).affixes =
        m.affixes ++ components.flatMap mutAffixesOf := by
  induction components with
  | nil => intro m _; simp
  | cons c rest ih =>
      intro m h
      rw [List.foldl_cons, ih _ (fun x hx => h x (List.mem_cons_of_mem c hx)),
        applyComponent_affixes m c (h c (List.mem_cons_self c rest)), List.flatMap_cons,
        List.append_assoc]

/-- The rarity-upgrade branch does not touch `affixes`. -/
theorem upgradeRarityStep_affixes (f : Fragment) :
    (upgradeRarityStep f).affixes = f.affixes := by
  unfold upgradeRarityStep
  cases rarityOrder.indexOf? f.rarity with
  | none => rfl
  | some i => by_cases hi : i + 1 < rarityOrder.length <;> simp [hi]

/-- A concrete base item that already carries one affix (e.g. the result of
an earlier mutation, which keeps type base_item). -/
def baseC7 : Fragment :=
  { name := "Helmet", type := "base_item", rarity := "common",
    baseStats := [("power", 12), ("defense", 8), ("speed", 3)],
    implicitMods := [⟨"Increased Defense", 11⟩],
    affixes := [⟨"Void Iron - Flux Regeneration", 7, "mutation"⟩],
    isCorrupted := false, quantity := 1 }

/-- A concrete component with a single implicit mod. -/
def compC7 : Fragment :=
  { name := "Essence Core", type := "component", rarity := "common",
    baseStats := [("enhancement", 9)],
    implicitMods := [⟨"Critical Strike Chance", 10⟩],
    affixes := [], isCorrupted := false, quantity := 1 }

/-- C7 counterexample: the mutation result starts from a copy of the base
fragment's affixes, so for a base that already has one affix and a single
one-mod component the result has 2 affixes while the total implicit-mod
count across the inputs is 1. -/
theorem performMutation_affix_count_counterexample :
    (performMutation baseC7 [compC7]
        { flux := 1000, totalSpins := 0, deviceLevel := 1, spinSpeedLevel := 1,
          rarityOddsLevel := 1, fluxCostLevel := 1, mutationSlotsLevel := 1 }
        0.5).affixes.length = 2 ∧
    (([compC7].map (fun c => c.implicitMods.length)).sum = 1) ∧
    (2 : Nat) ≠ 1 := by
  refine ⟨?_, by simp [compC7], by decide⟩
  have hev : ¬ ((0.5 : ℚ) < 0.1) := by norm_num
  simp [performMutation, hev, applyComponent, mutAffixesOf, baseC7, compC7]

/-- C7 (amended): for every successful mutation whose base has type base_item
and whose components all have type component or modifier, the result's
affixes are the base fragment's own affixes followed by one affix per
component implicit mod, in component input order and then mod order within
each component (as produced by `mutAffixesOf`: component-typed inputs
contribute `floor(value * 0.7)`, modifier-typed inputs contribute the value
unscaled, each with source "mutation"); hence the result's affix count is
the base's affix count plus the total implicit-mod count across all
components. -/
theorem performMutation_affixes (baseFragment : Fragment) (components : List Fragment)
    (gameState : GameState) (evolveRoll : ℚ)
    (hb : baseFragment.type = "base_item")
    (hc : ∀ c ∈ components, c.type = "component" ∨ c.type = "modifier") :
    (performMutation baseFragment components gameState evolveRoll).affixes =
      baseFragment.affixes ++ components.flatMap mutAffixesOf ∧
    (performMutation baseFragment components gameState evolveRoll).affixes.length =
      baseFragment.affixes.length +
        (components.map (fun c => c.implicitMods.length)).sum := by
  have hmain : (performMutation baseFragment components gameState evolveRoll).affixes =
      baseFragment.affixes ++ components.flatMap mutAffixesOf := by
    unfold performMutation
    by_cases hev : evolveRoll < 0.1
    · simp only [hev, if_true, upgradeRarityStep_affixes]
      exact foldl_applyComponent_affixes components _ hc
    · simp only [hev, if_false]
      exact foldl_applyComponent_affixes components _ hc
  refine ⟨hmain, ?_⟩
  rw [hmain, List.length_append, List.length_flatMap]
  simp [Function.comp_def, mutAffixesOf]

/-- A fresh base item with no affixes, for the C7 witness. -/
def baseC7w : Fragment :=
  { name := "Boots", type := "base_item", rarity := "common",
    baseStats := [("power", 15), ("defense", 6), ("speed", 4)],
    implicitMods := [⟨"Increased Speed", 8⟩],
    affixes := [], isCorrupted := false, quantity := 1 }

/-- A modifier component with two implicit mods, for the C7 witness. -/
def modC7w : Fragment :=
  { name := "Whisper of Void", type := "modifier", rarity := "uncommon",
    baseStats := [("modifier", 5)],
    implicitMods := [⟨"Void Affinity", 12⟩, ⟨"Flux Regeneration", 6⟩],
    affixes := [], isCorrupted := false, quantity := 1 }

/-- A fresh game state for the C7 witness. -/
def gsC7w : GameState :=
  { flux := 1000, totalSpins := 0, deviceLevel := 1, spinSpeedLevel := 1,
    rarityOddsLevel := 1, fluxCostLevel := 1, mutationSlotsLevel := 1 }

/-- Witness for C7: a fresh base item with no affixes and one modifier
component with two implicit mods. -/
theorem performMutation_affixes_witness :
    (performMutation baseC7w [modC7w] gsC7w 0.7).affixes =
      baseC7w.affixes ++ [modC7w].flatMap mutAffixesOf ∧
    (performMutation baseC7w [modC7w] gsC7w 0.7).affixes.length =
      baseC7w.affixes.length + ([modC7w].map (fun c => c.implicitMods.length)).sum :=
  performMutation_affixes baseC7w [modC7w] gsC7w 0.7 rfl
    (by intro c hc; rcases List.mem_singleton.mp hc with rfl; right; rfl)

/- ### C8: weightedChoice -/

/-- When the accumulation loop returns an item, that item sits at a position
whose inclusive cumulative weight (from the starting accumulator) is at
least the drawn value. -/
theorem wcLoop_some_decomp {α : Type} (r : ℚ) :
    ∀ (items : List (α × ℚ)) (cur : ℚ) (v : α),
      wcLoop r cur items = some v →
      ∃ pre wt suf, items = pre ++ (v, wt) :: suf ∧
        r ≤ cur + (pre.map Prod.snd).sum + wt := by
  intro items
  induction items with
  | nil => intro cur v h; cases h
  | cons p rest ih =>
      intro cur v h
      obtain ⟨a, w⟩ := p
      rw [wcLoop] at h
      by_cases hle : r ≤ cur + w
      · rw [if_pos hle] at h
        injection h with h
        subst h
        exact ⟨[], w, rest, rfl, by simpa using hle⟩
      · rw [if_neg hle] at h
        obtain ⟨pre, w2, suf, heq, hsum⟩ := ih (cur + w) v h
        refine ⟨(a, w) :: pre, w2, suf, by simp [heq], ?_⟩
        simp only [List.map_cons, List.sum_cons]
        linarith

/-- C8 (amended): with non-negative weights, whenever the generator draw is
strictly positive and not all weights are zero, `weightedChoice` returns an
item whose inclusive cumulative weight is strictly positive (no item with
zero cumulative reachable weight is returned); with all-zero weights it
degenerately returns the **first** item (not the last). -/
theorem weightedChoice_reachable_weight {α : Type} (items : List (α × ℚ)) (s : Int)
    (hne : items ≠ []) (hw : ∀ p ∈ items, 0 ≤ p.2) :
    (0 < fracOf (lcgStep s) → 0 < (items.map Prod.snd).sum →
      ∃ v pre wt suf, (weightedChoice items s).1 = some v ∧
        items = pre ++ (v, wt) :: suf ∧ 0 < (pre.map Prod.snd).sum + wt) ∧
    ((∀ p ∈ items, p.2 = 0) → (weightedChoice items s).1 = items.head?.map Prod.fst) := by
  constructor
  · intro hfrac htot
    have hr : (0 : ℚ) < 0 + fracOf (lcgStep s) * ((items.map Prod.snd).sum - 0) := by
      have := mul_pos hfrac (by linarith : (0:ℚ) < (items.map Prod.snd).sum - 0)
      linarith
    cases hloop : wcLoop (0 + fracOf (lcgStep s) * ((items.map Prod.snd).sum - 0)) 0 items with
    | some a =>
        obtain ⟨pre, wt, suf, heq, hsum⟩ := wcLoop_some_decomp _ items 0 a hloop
        refine ⟨a, pre, wt, suf, ?_, heq, by linarith⟩
        simp only [weightedChoice, rngRandom, rngNext]
        rw [hloop]
    | none =>
        have hg : items.getLast? = some (items.getLast hne) :=
          List.getLast?_eq_getLast items hne
        refine ⟨(items.getLast hne).1, items.dropLast, (items.getLast hne).2, [], ?_, ?_, ?_⟩
        · simp only [weightedChoice, rngRandom, rngNext]
          rw [hloop, hg]
          rfl
        · exact (List.dropLast_append_getLast hne).symm
        · have hitem : items = items.dropLast ++ [items.getLast hne] :=
            (List.dropLast_append_getLast hne).symm
          have htot2 : (items.map Prod.snd).sum =
              (items.dropLast.map Prod.snd).sum + (items.getLast hne).2 := by
            conv_lhs => rw [hitem]
            simp
          linarith
  · intro hz
    have htot : (items.map Prod.snd).sum = 0 := by
      apply List.sum_eq_zero
      intro x hx
      obtain ⟨p, hp, rfl⟩ := List.mem_map.mp hx
      exact hz p hp
    cases items with
    | nil => exact absurd rfl hne
    | cons p rest =>
        obtain ⟨a, w⟩ := p
        have hw0 : w = 0 := hz (a, w) (List.mem_cons_self _ _)
        simp only [weightedChoice, rngRandom, rngNext, htot, wcLoop]
        rw [hw0]
        norm_num

/-- A weight list with a zero-weight first item and a positive item. -/
def wcItemsA : List (Nat × ℚ) := [(0, 0), (1, 1)]

/-- An all-zero-weight list. -/
def wcItemsB : List (Nat × ℚ) := [(0, 0), (1, 0)]

/-- C8 counterexample, two parts. First: at generator state 22643 the next
draw is exactly 0 (`lcgStep 22643 = 0`), and `weightedChoice` on
`[(0, 0), (1, 1)]` returns the first item — an item whose inclusive
cumulative weight is `0` — even though not all weights are zero. Second:
with all-zero weights `[(0, 0), (1, 0)]` the function returns the first
item `0`, not the last item `1` as the claim states. -/
theorem weightedChoice_counterexample :
    ((weightedChoice wcItemsA 22643).1 = some 0 ∧
      wcItemsA = [] ++ (0, (0 : ℚ)) :: [(1, 1)] ∧
      (([] : List (Nat × ℚ)).map Prod.snd).sum + 0 = 0 ∧
      ¬ (∀ p ∈ wcItemsA, p.2 = 0)) ∧
    ((weightedChoice wcItemsB 7).1 = some 0 ∧
      wcItemsB.getLast? = some (1, 0) ∧ (0 : Nat) ≠ 1) := by
  have hs : lcgStep 22643 = 0 := by decide
  refine ⟨⟨?_, rfl, by simp, ?_⟩, ?_, rfl, by decide⟩
  · simp only [weightedChoice, rngRandom, rngNext, wcItemsA, wcLoop, hs]
    norm_num [fracOf]
  · intro hall
    have := hall (1, 1) (by simp [wcItemsA])
    norm_num at this
  · simp only [weightedChoice, rngRandom, rngNext, wcItemsB, wcLoop]
    norm_num

/-- Witness for C8 at the one-item positive-weight list `[(5, 2)]` and
generator state 1. -/
theorem weightedChoice_reachable_weight_witness :
    (0 < fracOf (lcgStep 1) → 0 < (([((5 : Nat), (2 : ℚ))]).map Prod.snd).sum →
      ∃ v pre wt suf, (weightedChoice [((5 : Nat), (2 : ℚ))] 1).1 = some v ∧
        [((5 : Nat), (2 : ℚ))] = pre ++ (v, wt) :: suf ∧
        0 < (pre.map Prod.snd).sum + wt) ∧
    ((∀ p ∈ [((5 : Nat), (2 : ℚ))], p.2 = 0) →
      (weightedChoice [((5 : Nat), (2 : ℚ))] 1).1 =
        ([((5 : Nat), (2 : ℚ))]).head?.map Prod.fst) :=
  weightedChoice_reachable_weight [((5 : Nat), (2 : ℚ))] 1 (by simp)
    (by intro p hp; rcases List.mem_singleton.mp hp with rfl; norm_num)

/- ### C10: performMutation writes only to fresh cells -/

/-- Writing one cell leaves every other cell unchanged. -/
theorem lookupH_writeH_ne {β : Type} (h : List (Nat × β)) (r j : Nat) (v : β)
    (hne : j ≠ r) : lookupH (writeH h j v) r = lookupH h r := by
  unfold lookupH writeH
  have : ((j, v).1 == r) = false := by simpa using hne
  rw [List.find?_cons_of_neg _ (by simpa using this)]

/-- The heap forEach body writes only through the result fragment's stats
and affix references. -/
theorem applyComponentH_frame (res : FragmentR) (c : FragmentR) (sto : StoreH) (r : Nat)
    (h1 : r ≠ res.baseStatsRef) (h2 : r ≠ res.affixesRef) :
    lookupH (applyComponentH res sto c).statsH r = lookupH sto.statsH r ∧
    lookupH (applyComponentH res sto c).modsH r = lookupH sto.modsH r ∧
    lookupH (applyComponentH res sto c).affixH r = lookupH sto.affixH r := by
  unfold applyComponentH
  split_ifs with hc1 hc2
  · exact ⟨lookupH_writeH_ne _ _ _ _ (fun h => h1 h.symm), rfl,
      lookupH_writeH_ne _ _ _ _ (fun h => h2 h.symm)⟩
  · exact ⟨rfl, rfl, lookupH_writeH_ne _ _ _ _ (fun h => h2 h.symm)⟩
  · exact ⟨rfl, rfl, rfl⟩

/-- The whole component loop writes only through the result fragment's
references. -/
theorem foldl_applyComponentH_frame (components : List FragmentR) (res : FragmentR)
    (r : Nat) (h1 : r ≠ res.baseStatsRef) (h2 : r ≠ res.affixesRef) :
    ∀ sto : StoreH,
      lookupH (components.foldl (applyComponentH res) sto).statsH r =
        lookupH sto.statsH r ∧
      lookupH (components.foldl (applyComponentH res) sto).modsH r =
        lookupH sto.modsH r ∧
      lookupH (components.foldl (applyComponentH res) sto).affixH r =
        lookupH sto.affixH r := by
  induction components with
  | nil => intro sto; exact ⟨rfl, rfl, rfl⟩
  | cons c rest ih =>
      intro sto
      rw [List.foldl_cons]
      obtain ⟨ha, hb, hcx⟩ := ih (applyComponentH res sto c)
      obtain ⟨ha2, hb2, hc2⟩ := applyComponentH_frame res c sto r h1 h2
      exact ⟨ha.trans ha2, hb.trans hb2, hcx.trans hc2⟩

/-- C10: `performMutation` never modifies its inputs. In the heap model,
every cell allocated before the call (any reference below the allocation
counter — in particular the base fragment's and every component's stats,
implicit-mod and affix arrays) reads the same after the call, and the
result fragment's three references are freshly allocated. -/
theorem performMutationH_frame (base : FragmentR) (components : List FragmentR)
    (evolveRoll : ℚ) (sto : StoreH) (r : Nat) (hr : r < sto.nextRef) :
    lookupH (performMutationH base components evolveRoll sto).2.statsH r =
      lookupH sto.statsH r ∧
    lookupH (performMutationH base components evolveRoll sto).2.modsH r =
      lookupH sto.modsH r ∧
    lookupH (performMutationH base components evolveRoll sto).2.affixH r =
      lookupH sto.affixH r ∧
    sto.nextRef ≤ (performMutationH base components evolveRoll sto).1.baseStatsRef ∧
    sto.nextRef ≤ (performMutationH base components evolveRoll sto).1.implicitModsRef ∧
    sto.nextRef ≤ (performMutationH base components evolveRoll sto).1.affixesRef := by
  have hframe := foldl_applyComponentH_frame components
    { base with
      name := "Mutated " ++ base.name
      baseStatsRef := sto.nextRef
      implicitModsRef := sto.nextRef + 1
      affixesRef := sto.nextRef + 2 }
    r (by dsimp only; omega) (by dsimp only; omega)
    { statsH := writeH sto.statsH sto.nextRef ((lookupH sto.statsH base.baseStatsRef).getD [])
      modsH := writeH sto.modsH (sto.nextRef + 1) ((lookupH sto.modsH base.implicitModsRef).getD [])
      affixH := writeH sto.affixH (sto.nextRef + 2) ((lookupH sto.affixH base.affixesRef).getD [])
      nextRef := sto.nextRef + 3 }
  obtain ⟨hst, hmd, haf⟩ := hframe
  refine ⟨?_, ?_, ?_, ?_, ?_, ?_⟩
  · exact hst.trans (lookupH_writeH_ne sto.statsH r sto.nextRef _ (by omega))
  · exact hmd.trans (lookupH_writeH_ne sto.modsH r (sto.nextRef + 1) _ (by omega))
  · exact haf.trans (lookupH_writeH_ne sto.affixH r (sto.nextRef + 2) _ (by omega))
  · show sto.nextRef ≤ (performMutationH base components evolveRoll sto).1.baseStatsRef
    simp only [performMutationH]
    split <;> first
      | (dsimp only; omega)
      | (split <;> first
          | (dsimp only; omega)
          | (split <;> dsimp only <;> omega))
  · show sto.nextRef ≤ (performMutationH base components evolveRoll sto).1.implicitModsRef
    simp only [performMutationH]
    split <;> first
      | (dsimp only; omega)
      | (split <;> first
          | (dsimp only; omega)
          | (split <;> dsimp only <;> omega))
  · show sto.nextRef ≤ (performMutationH base components evolveRoll sto).1.affixesRef
    simp only [performMutationH]
    split <;> first
      | (dsimp only; omega)
      | (split <;> first
          | (dsimp only; omega)
          | (split <;> dsimp only <;> omega))

/-- A concrete three-cell store for the C10 witness. -/
def stoC10 : StoreH :=
  { statsH := [(0, [("power", 10)])]
    modsH := [(1, [⟨"Increased Damage", 5⟩])]
    affixH := [(2, [])]
    nextRef := 3 }

/-- A concrete base fragment whose arrays live at cells 0, 1 and 2. -/
def baseC10 : FragmentR :=
  { name := "Sword", type := "base_item", rarity := "common",
    baseStatsRef := 0, implicitModsRef := 1, affixesRef := 2,
    isCorrupted := false, quantity := 1 }

/-- Witness for C10 at the concrete store above, checking cell 0. -/
theorem performMutationH_frame_witness :
    lookupH (performMutationH baseC10 [] 0.5 stoC10).2.statsH 0 =
      lookupH stoC10.statsH 0 ∧
    lookupH (performMutationH baseC10 [] 0.5 stoC10).2.modsH 0 =
      lookupH stoC10.modsH 0 ∧
    lookupH (performMutationH baseC10 [] 0.5 stoC10).2.affixH 0 =
      lookupH stoC10.affixH 0 ∧
    stoC10.nextRef ≤ (performMutationH baseC10 [] 0.5 stoC10).1.baseStatsRef ∧
    stoC10.nextRef ≤ (performMutationH baseC10 [] 0.5 stoC10).1.implicitModsRef ∧
    stoC10.nextRef ≤ (performMutationH baseC10 [] 0.5 stoC10).1.affixesRef :=
  performMutationH_frame baseC10 [] 0.5 stoC10 0 (by decide)
